import Mathlib

set_option maxRecDepth 10000

namespace Icelander

/-!
Shallow embedding of the Icelander connection and event management layer
(`src/packet.cpp`, `src/peer.cpp`, `src/host.cpp`, `src/event_dispatcher.cpp`).

Conventions:
* machine integers are `Nat`, reduced mod `2 ^ width` where the C++ type
  forces a width; byte buffers (`std::vector<uint8_t>`, `std::string`,
  spans) are `List Nat` whose entries stand for `uint8_t` values;
* methods that mutate an object in place are state-passing functions
  returning the updated object; methods that can fail (returning `false`
  or throwing `std::runtime_error`) return an `Option` result paired with
  the post-call object state;
* raw pointers / handles owned by the transport engine are `Nat`
  identifiers; `nullptr` is `Option.none`.
-/

/-- Little-endian byte serialization of a `width`-byte unsigned integer:
mirrors the `memcpy`-based `PacketBuilder::write(&value, sizeof(value))`
on the little-endian host. -/
def bytesOfUint : Nat → Nat → List Nat
  | 0, _ => []
  | w + 1, v => v % 256 :: bytesOfUint w (v / 256)

/-- Little-endian byte deserialization: mirrors the `memcpy` out of the
reader's buffer into a fixed-width unsigned integer in
`PacketReader::readUint16/32/64`. -/
def uintOfBytes : List Nat → Nat
  | [] => 0
  | b :: rest => b + 256 * uintOfBytes rest

/-- A native ENet packet (`ENetPacket`): the engine-owned byte buffer
plus its flag word. -/
structure NativePacket where
  data : List Nat
  flags : Nat
deriving Repr, DecidableEq

/-- The `Packet` wrapper: `nativePacket_` is the possibly-null
`ENetPacket*` handle. -/
structure Packet where
  nativePacket_ : Option NativePacket
deriving Repr, DecidableEq

/-- Model of `Packet::data()`: the wrapped bytes, empty for a null handle. -/
def Packet.dataBytes (p : Packet) : List Nat :=
  match p.nativePacket_ with
  | some np => np.data
  | none => []

/-- Model of `Packet::size()`: `nativePacket_ ? nativePacket_->dataLength : 0`. -/
def Packet.size (p : Packet) : Nat :=
  match p.nativePacket_ with
  | some np => np.data.length
  | none => 0

/-- Model of `PacketBuilder`: a growable byte buffer. -/
structure PacketBuilder where
  buffer_ : List Nat
deriving Repr, DecidableEq

/-- Model of `PacketBuilder::write(const void*, size_t)` / `write(span)` /
`write(string)`: append raw bytes to the buffer. -/
def PacketBuilder.write (b : PacketBuilder) (packetData : List Nat) : PacketBuilder :=
  { buffer_ := b.buffer_ ++ packetData }

/-- Model of `PacketBuilder::writeUint8`: `buffer_.push_back(value)` (the argument
has C++ type `uint8_t`, hence the mod 256). -/
def PacketBuilder.writeUint8 (b : PacketBuilder) (value : Nat) : PacketBuilder :=
  { buffer_ := b.buffer_ ++ [value % 256] }

/-- Model of `PacketBuilder::writeUint16`: `write(&value, sizeof(value))` with a
`uint16_t` argument, little-endian host order. -/
def PacketBuilder.writeUint16 (b : PacketBuilder) (value : Nat) : PacketBuilder :=
  b.write (bytesOfUint 2 value)

/-- Model of `PacketBuilder::writeUint32`. -/
def PacketBuilder.writeUint32 (b : PacketBuilder) (value : Nat) : PacketBuilder :=
  b.write (bytesOfUint 4 value)

/-- Model of `PacketBuilder::writeUint64`. -/
def PacketBuilder.writeUint64 (b : PacketBuilder) (value : Nat) : PacketBuilder :=
  b.write (bytesOfUint 8 value)

/-- Model of `PacketBuilder::writeString`: `writeUint32(str.size())` then the raw
string bytes, no terminator. -/
def PacketBuilder.writeString (b : PacketBuilder) (str : List Nat) : PacketBuilder :=
  (b.writeUint32 str.length).write str

/-- Model of `PacketBuilder::size()`. -/
def PacketBuilder.size (b : PacketBuilder) : Nat :=
  b.buffer_.length

/-- Model of `PacketBuilder::clear()`. -/
def PacketBuilder.clear (_ : PacketBuilder) : PacketBuilder :=
  { buffer_ := [] }

/-- Model of `PacketBuilder::build(flags)`: snapshots the buffer into a fresh
packet (`Packet::create` / `enet_packet_create` on a copy). -/
def PacketBuilder.build (b : PacketBuilder) (flags : Nat) : Packet :=
  { nativePacket_ := some { data := b.buffer_, flags := flags } }

/-- Model of `PacketReader`: a borrowed byte slice plus a cursor. -/
structure PacketReader where
  data_ : List Nat
  position_ : Nat
deriving Repr, DecidableEq

/-- Outcome of a bounds-checked byte copy out of the reader. `fail` is
the clean failure (`read` returns `false`, the typed readers throw);
`outOfBounds` marks the case where the C++ `size_t` guard wrapped, the
check passed, and the `memcpy` reads past the end of the buffer —
undefined behavior in the program. -/
inductive ReadResult (α : Type)
  | ok (value : α)
  | fail
  | outOfBounds
deriving Repr, DecidableEq

/-- Model of `PacketReader::read(void*, size_t)`: the C++ guard
`position_ + size > data_.size()` computes the sum in `size_t`, so it
wraps mod `2 ^ 64`. When the wrapped sum exceeds the buffer size the
call returns `false` (`fail`), leaving the cursor untouched. When the
guard passes and the copy really is in bounds, `size` bytes are copied
and the cursor advances by exactly `size` (no wrap is possible there,
the sum being at most the buffer size, itself a `size_t`). When the
guard passes only because the sum wrapped, the `memcpy` runs out of
bounds: `outOfBounds`, undefined behavior. -/
def PacketReader.read (r : PacketReader) (size : Nat) : ReadResult (List Nat) × PacketReader :=
  if (r.position_ + size) % 2 ^ 64 > r.data_.length then
    (ReadResult.fail, r)
  else if r.position_ + size ≤ r.data_.length then
    (ReadResult.ok ((r.data_.drop r.position_).take size),
     { r with position_ := r.position_ + size })
  else
    (ReadResult.outOfBounds, r)

/-- Model of `PacketReader::readUint8`: throws when `position_ >= data_.size()`
(modelled as `none` with the reader unchanged), otherwise returns
`data_[position_++]`. The guard has no arithmetic, so no wrap is
possible here. -/
def PacketReader.readUint8 (r : PacketReader) : Option Nat × PacketReader :=
  if r.position_ ≥ r.data_.length then
    (none, r)
  else
    (some (r.data_.getD r.position_ 0), { r with position_ := r.position_ + 1 })

/-- Model of `PacketReader::readUint16`: `read(&value, 2)`, throwing on failure. -/
def PacketReader.readUint16 (r : PacketReader) : ReadResult Nat × PacketReader :=
  match r.read 2 with
  | (ReadResult.ok bs, r2) => (ReadResult.ok (uintOfBytes bs), r2)
  | (ReadResult.fail, r2) => (ReadResult.fail, r2)
  | (ReadResult.outOfBounds, r2) => (ReadResult.outOfBounds, r2)

/-- Model of `PacketReader::readUint32`: `read(&value, 4)`, throwing on failure. -/
def PacketReader.readUint32 (r : PacketReader) : ReadResult Nat × PacketReader :=
  match r.read 4 with
  | (ReadResult.ok bs, r2) => (ReadResult.ok (uintOfBytes bs), r2)
  | (ReadResult.fail, r2) => (ReadResult.fail, r2)
  | (ReadResult.outOfBounds, r2) => (ReadResult.outOfBounds, r2)

/-- Model of `PacketReader::readUint64`: `read(&value, 8)`, throwing on failure. -/
def PacketReader.readUint64 (r : PacketReader) : ReadResult Nat × PacketReader :=
  match r.read 8 with
  | (ReadResult.ok bs, r2) => (ReadResult.ok (uintOfBytes bs), r2)
  | (ReadResult.fail, r2) => (ReadResult.fail, r2)
  | (ReadResult.outOfBounds, r2) => (ReadResult.outOfBounds, r2)

/-- Model of `PacketReader::readString(length)`: the same wrapped
`size_t` guard `position_ + length > data_.size()` as `read`; throws
(`fail`) when the wrapped sum exceeds the buffer size, reads the next
`length` bytes when really in bounds, and runs out of bounds
(undefined behavior) when the guard passed only by wraparound. -/
def PacketReader.readString (r : PacketReader) (length : Nat) : ReadResult (List Nat) × PacketReader :=
  if (r.position_ + length) % 2 ^ 64 > r.data_.length then
    (ReadResult.fail, r)
  else if r.position_ + length ≤ r.data_.length then
    (ReadResult.ok ((r.data_.drop r.position_).take length),
     { r with position_ := r.position_ + length })
  else
    (ReadResult.outOfBounds, r)

/-- Model of `PacketReader::remaining()`: `data_.size() - position_`. -/
def PacketReader.remaining (r : PacketReader) : Nat :=
  r.data_.length - r.position_

/-- Model of `PacketReader::position()`. -/
def PacketReader.position (r : PacketReader) : Nat :=
  r.position_

/-- Model of `PacketReader::size()`. -/
def PacketReader.size (r : PacketReader) : Nat :=
  r.data_.length

/-- Model of `PacketReader::atEnd()`. -/
def PacketReader.atEnd (r : PacketReader) : Bool :=
  r.position_ ≥ r.data_.length

/-- Model of `PacketReader::seek`: `position_ = position < size ? position : size`. -/
def PacketReader.seek (r : PacketReader) (pos : Nat) : PacketReader :=
  { r with position_ := if pos < r.data_.length then pos else r.data_.length }

/-- Model of `PacketReader::skip`: `newPos = position_ + bytes` is
computed in `size_t`, wrapping mod `2 ^ 64`; the wrapped sum is then
clamped to the buffer size (`newPos < size ? newPos : size`). -/
def PacketReader.skip (r : PacketReader) (bytes : Nat) : PacketReader :=
  { r with position_ :=
      if (r.position_ + bytes) % 2 ^ 64 < r.data_.length then (r.position_ + bytes) % 2 ^ 64
      else r.data_.length }

/-- Model of `PacketReader::reset()`. -/
def PacketReader.reset (r : PacketReader) : PacketReader :=
  { r with position_ := 0 }

/-- Model of `PeerState` (`enum class PeerState`), one constructor per
`ENET_PEER_STATE_*` value. -/
inductive PeerState
  | disconnected
  | connecting
  | acknowledgingConnect
  | connectionPending
  | connectionSucceeded
  | connected
  | disconnectLater
  | disconnecting
  | acknowledgingDisconnect
  | zombie
deriving Repr, DecidableEq, BEq

/-- A native ENet peer record (`ENetPeer`): its address identity
(`handle`, standing for the `ENetPeer*` pointer value), the engine-owned
connection state, and the smoothed round-trip-time field. -/
structure NativePeer where
  handle : Nat
  state : PeerState
  roundTripTime : Nat
deriving Repr, DecidableEq

/-- The `Peer` wrapper: `nativePeer_` is the possibly-null `ENetPeer*`
(the non-owning back-reference to the `Host` and the `userData_` slot do
not affect any modelled operation and are omitted). -/
structure Peer where
  nativePeer_ : Option NativePeer
deriving Repr, DecidableEq

/-- Model of `Peer::state()`:
`nativePeer_ ? static_cast<PeerState>(nativePeer_->state) : PeerState::disconnected`.
The `static_cast` is the identity map between the engine's state values
and `PeerState`. -/
def Peer.state (p : Peer) : PeerState :=
  match p.nativePeer_ with
  | some np => np.state
  | none => PeerState.disconnected

/-- Model of `Peer::isConnected()`. -/
def Peer.isConnected (p : Peer) : Bool :=
  p.state == PeerState.connected

/-- Model of `Peer::isDisconnected()`: `state() == PeerState::disconnected`. -/
def Peer.isDisconnected (p : Peer) : Bool :=
  p.state == PeerState.disconnected

/-- Model of `Peer::roundTripTime()`: 0 milliseconds for a null handle. -/
def Peer.roundTripTime (p : Peer) : Nat :=
  match p.nativePeer_ with
  | some np => np.roundTripTime
  | none => 0

/-- Model of `Peer::nativeHandle()` as a pointer value (`none` = `nullptr`). -/
def Peer.nativeHandle (p : Peer) : Option Nat :=
  p.nativePeer_.map NativePeer.handle

/-- A request issued to the transport engine by a fire-and-forget `Peer`
method; a method that finds a null handle issues none. -/
inductive EngineCall
  | peerDisconnect (dat : Nat)
  | peerDisconnectNow (dat : Nat)
  | peerDisconnectLater (dat : Nat)
  | peerPing
deriving Repr, DecidableEq

/-- Model of `Peer::disconnect(data)`: calls `enet_peer_disconnect` only when the
handle is non-null; the returned list holds the engine request issued. -/
def Peer.disconnect (p : Peer) (dat : Nat) : List EngineCall :=
  match p.nativePeer_ with
  | some _ => [EngineCall.peerDisconnect dat]
  | none => []

/-- Model of `Peer::disconnectNow(data)`. -/
def Peer.disconnectNow (p : Peer) (dat : Nat) : List EngineCall :=
  match p.nativePeer_ with
  | some _ => [EngineCall.peerDisconnectNow dat]
  | none => []

/-- Model of `Peer::disconnectLater(data)`. -/
def Peer.disconnectLater (p : Peer) (dat : Nat) : List EngineCall :=
  match p.nativePeer_ with
  | some _ => [EngineCall.peerDisconnectLater dat]
  | none => []

/-- Model of `Peer::ping()`. -/
def Peer.ping (p : Peer) : List EngineCall :=
  match p.nativePeer_ with
  | some _ => [EngineCall.peerPing]
  | none => []

/-- Observable outcome of `Peer::send(channel, std::unique_ptr<Packet>)`:
the boolean result, the caller's `unique_ptr` after the call (always
null, since the pointer is moved into the parameter), and the native
packets handed to the engine by this call. -/
structure SendOutcome where
  result : Bool
  callerPtr : Option Packet
  submitted : List NativePacket
deriving Repr, DecidableEq

/-- Model of `Peer::send(channel, pkt)`: returns `false` when the peer handle or
the packet pointer is null; otherwise releases the wrapper and hands the
native packet to `enet_peer_send`, whose accept/reject verdict is the
external parameter `engineAccepts`. The caller's `unique_ptr` is null
after the call in every case. -/
def Peer.send (p : Peer) (_channel : Nat) (engineAccepts : Bool) (pkt : Option Packet) : SendOutcome :=
  match pkt with
  | none => { result := false, callerPtr := none, submitted := [] }
  | some pw =>
    match p.nativePeer_ with
    | none => { result := false, callerPtr := none, submitted := [] }
    | some _ =>
      { result := engineAccepts
        callerPtr := none
        submitted :=
          match pw.nativePacket_ with
          | some np => [np]
          | none => [] }

/-- One weak registry entry of a `Host` (`std::weak_ptr<Peer>`):
`wrapperId` is the object identity of the shared `Peer` wrapper it
points to, `expired` is true once every strong reference to that
wrapper is gone. -/
structure WeakPeer where
  wrapperId : Nat
  wrapper : Peer
  expired : Bool
deriving Repr, DecidableEq

/-- Model of `std::weak_ptr<Peer>::lock()`: the shared wrapper (with its object
identity) while strong owners remain, `none` once expired. -/
def WeakPeer.lock (w : WeakPeer) : Option (Nat × Peer) :=
  if w.expired then none else some (w.wrapperId, w.wrapper)

/-- The `Host` wrapper: the possibly-null `ENetHost*` handle, the weak
peer registry, and a counter supplying fresh wrapper object identities
(modelling `std::make_shared` allocation addresses). The dispatcher,
server flag and service-thread members do not affect the modelled
operations. -/
structure Host where
  nativeHost_ : Option Nat
  peers_ : List WeakPeer
  nextId : Nat
deriving Repr, DecidableEq

/-- The prune-and-collect loop body of `Host::getPeers()`: walks the
registry in order, keeping entries whose `lock()` succeeds (collecting
the locked wrappers) and erasing expired entries in place. -/
def getPeersAux : List WeakPeer → List (Nat × Peer) × List WeakPeer
  | [] => ([], [])
  | w :: rest =>
    let (live, kept) := getPeersAux rest
    match w.lock with
    | some p => (p :: live, w :: kept)
    | none => (live, kept)

/-- Model of `Host::getPeers()`: returns the still-live wrappers and the host
with its registry pruned of expired entries. -/
def Host.getPeers (h : Host) : List (Nat × Peer) × Host :=
  let (live, kept) := getPeersAux h.peers_
  (live, { h with peers_ := kept })

/-- Model of `Host::peerCount()`: counts registry entries whose weak pointer has
not expired, without pruning. -/
def Host.peerCount (h : Host) : Nat :=
  (h.peers_.filter (fun w => !w.expired)).length

/-- Model of `Host::findPeerByNative(nativePeer)`: `getPeers()` (which prunes)
followed by a linear scan comparing `nativeHandle()` pointers. -/
def Host.findPeerByNative (h : Host) (native : Nat) : Option (Nat × Peer) × Host :=
  let (live, h2) := h.getPeers
  (live.find? (fun p => p.2.nativeHandle == some native), h2)

/-- Model of `Host::connect(remoteEndpoint, channels, connectData)`: throws on a
null host handle; `enginePeer` is `enet_host_connect`'s result (`none` =
allocation failure, which also throws). On success a fresh wrapper is
made, registered as a weak entry, and returned. -/
def Host.connect (h : Host) (enginePeer : Option NativePeer) : Option ((Nat × Peer) × Host) :=
  match h.nativeHost_ with
  | none => none
  | some _ =>
    match enginePeer with
    | none => none
    | some np =>
      let wrapper : Peer := { nativePeer_ := some np }
      some ((h.nextId, wrapper),
        { h with
            peers_ := h.peers_ ++ [{ wrapperId := h.nextId, wrapper := wrapper, expired := false }]
            nextId := h.nextId + 1 })

/-- Observable outcome of `Host::broadcast(channel, pkt)`: the caller's
`unique_ptr` after the call and the native packets handed to
`enet_host_broadcast` by this call. -/
structure BroadcastOutcome where
  callerPtr : Option Packet
  submitted : List NativePacket
deriving Repr, DecidableEq

/-- Model of `Host::broadcast(channel, pkt)`: a no-op when the host handle or the
packet pointer is null; otherwise releases the wrapper and hands the
native packet to the engine. -/
def Host.broadcast (h : Host) (_channel : Nat) (pkt : Option Packet) : BroadcastOutcome :=
  match pkt with
  | none => { callerPtr := none, submitted := [] }
  | some pw =>
    match h.nativeHost_ with
    | none => { callerPtr := none, submitted := [] }
    | some _ =>
      { callerPtr := none
        submitted :=
          match pw.nativePacket_ with
          | some np => [np]
          | none => [] }

/-- An `ENetEvent` as returned by `enet_host_service` (the `none` event
type never reaches `processEvent`). -/
inductive NativeEvent
  | connect (peer : NativePeer) (dat : Nat)
  | disconnect (peer : NativePeer) (dat : Nat)
  | receive (peer : NativePeer) (packet : Option NativePacket) (channel : Nat)
deriving Repr, DecidableEq

/-- A typed event value handed to the `EventDispatcher` by
`Host::processEvent` (the wrapper's object identity is recorded next to
the wrapper itself). -/
inductive Dispatched
  | connectEvt (wrapperId : Nat) (wrapper : Peer) (dat : Nat)
  | disconnectEvt (wrapperId : Nat) (wrapper : Peer) (dat : Nat)
  | receiveEvt (wrapperId : Nat) (wrapper : Peer) (packet : NativePacket) (channel : Nat)
deriving Repr, DecidableEq

/-- Model of `Host::processEvent(event)`: returns the host after the call, the
typed events handed to the dispatcher, and the native packets wrapped
via `Packet::fromNative` during the call. A connect event
unconditionally creates and registers a fresh wrapper; disconnect and
receive events look the wrapper up via `findPeerByNative` and are
dropped when no live wrapper matches (a receive event is also dropped
when `event.packet` is null). -/
def Host.processEvent (h : Host) (ev : NativeEvent) : Host × List Dispatched × List NativePacket :=
  match ev with
  | NativeEvent.connect np dat =>
    let wrapper : Peer := { nativePeer_ := some np }
    ({ h with
        peers_ := h.peers_ ++ [{ wrapperId := h.nextId, wrapper := wrapper, expired := false }]
        nextId := h.nextId + 1 },
     [Dispatched.connectEvt h.nextId wrapper dat], [])
  | NativeEvent.disconnect np dat =>
    match h.findPeerByNative np.handle with
    | (some (wid, w), h2) => (h2, [Dispatched.disconnectEvt wid w dat], [])
    | (none, h2) => (h2, [], [])
  | NativeEvent.receive np pkt channel =>
    match h.findPeerByNative np.handle with
    | (some (wid, w), h2) =>
      match pkt with
      | some npk => (h2, [Dispatched.receiveEvt wid w npk channel], [npk])
      | none => (h2, [], [])
    | (none, h2) => (h2, [], [])

/-- The application dropping every strong reference to the wrapper with
object identity `i`: the weak registry entries pointing at that wrapper
become expired (`std::shared_ptr` use count reaching zero). -/
def Host.dropStrong (h : Host) (i : Nat) : Host :=
  { h with
      peers_ := h.peers_.map (fun w => if w.wrapperId = i then { w with expired := true } else w) }

/-- Model of `EventDispatcher`: handler lists in registration order. Handlers are
opaque and identified by `Nat` labels; dispatching returns the labels in
invocation order (each handler runs to completion before the next
starts, so the trace order is the execution order). `channelHandlers_`
models the `std::unordered_map<ChannelIdT, std::vector<ReceiveHandler>>`
as a key-unique association list. -/
structure EventDispatcher where
  connectHandlers_ : List Nat
  disconnectHandlers_ : List Nat
  receiveHandlers_ : List Nat
  channelHandlers_ : List (Nat × List Nat)
deriving Repr, DecidableEq

/-- Model of `EventDispatcher::onConnect`. -/
def EventDispatcher.onConnect (d : EventDispatcher) (handler : Nat) : EventDispatcher :=
  { d with connectHandlers_ := d.connectHandlers_ ++ [handler] }

/-- Model of `EventDispatcher::onDisconnect`. -/
def EventDispatcher.onDisconnect (d : EventDispatcher) (handler : Nat) : EventDispatcher :=
  { d with disconnectHandlers_ := d.disconnectHandlers_ ++ [handler] }

/-- Model of `EventDispatcher::onReceive(handler)` (global overload). -/
def EventDispatcher.onReceive (d : EventDispatcher) (handler : Nat) : EventDispatcher :=
  { d with receiveHandlers_ := d.receiveHandlers_ ++ [handler] }

/-- Model of `channelHandlers_[channel].push_back(handler)`: `operator[]` inserts
an empty vector for a missing key, then the handler is appended. -/
def channelInsert : List (Nat × List Nat) → Nat → Nat → List (Nat × List Nat)
  | [], ch, handler => [(ch, [handler])]
  | (c, hs) :: rest, ch, handler =>
    if c = ch then (c, hs ++ [handler]) :: rest
    else (c, hs) :: channelInsert rest ch handler

/-- Model of `EventDispatcher::onReceive(channel, handler)` (channel-scoped
overload). -/
def EventDispatcher.onReceiveChannel (d : EventDispatcher) (ch handler : Nat) : EventDispatcher :=
  { d with channelHandlers_ := channelInsert d.channelHandlers_ ch handler }

/-- Model of `EventDispatcher::clearHandlers()`. -/
def EventDispatcher.clearHandlers (_ : EventDispatcher) : EventDispatcher :=
  { connectHandlers_ := [], disconnectHandlers_ := [], receiveHandlers_ := [], channelHandlers_ := [] }

/-- Model of `channelHandlers_.find(channel)`. -/
def channelFind (m : List (Nat × List Nat)) (ch : Nat) : Option (List Nat) :=
  (m.find? (fun e => e.1 == ch)).map Prod.snd

/-- Model of `EventDispatcher::dispatchConnect`: invocation trace. -/
def EventDispatcher.dispatchConnect (d : EventDispatcher) : List Nat :=
  d.connectHandlers_

/-- Model of `EventDispatcher::dispatchDisconnect`: invocation trace. -/
def EventDispatcher.dispatchDisconnect (d : EventDispatcher) : List Nat :=
  d.disconnectHandlers_

/-- Model of `EventDispatcher::dispatchReceive`: every global receive handler in
registration order, then the handlers registered for the event's
channel, in their registration order. The returned list is the
invocation trace. -/
def EventDispatcher.dispatchReceive (d : EventDispatcher) (ch : Nat) : List Nat :=
  d.receiveHandlers_ ++ (channelFind d.channelHandlers_ ch).getD []

/-- Registering a list of global receive handlers in order. -/
def registerGlobals (d : EventDispatcher) (gs : List Nat) : EventDispatcher :=
  gs.foldl (fun acc g => acc.onReceive g) d

/-- Registering a list of channel-scoped receive handlers in order. -/
def registerChannel (d : EventDispatcher) (ch : Nat) (cs : List Nat) : EventDispatcher :=
  cs.foldl (fun acc c => acc.onReceiveChannel ch c) d

/-- The string bytes of `"Hello, World!"`. -/
def helloBytes : List Nat :=
  [72, 101, 108, 108, 111, 44, 32, 87, 111, 114, 108, 100, 33]

/-- The packet of the spec's framing scenario: uint32 `0x12345678`, the
length-prefixed string `"Hello, World!"`, uint32 `314159`, uint8 `255`,
built with the default (reliable) flags. -/
def demoPacket : Packet :=
  (((((PacketBuilder.mk []).writeUint32 0x12345678).writeString helloBytes).writeUint32 314159).writeUint8 255).build 1

/-- Sequentially reading uint32, uint32-length-then-string, uint32,
uint8 from the demo packet. -/
def demoReads : ReadResult Nat × ReadResult (List Nat) × ReadResult Nat × Option Nat :=
  let s0 := PacketReader.mk demoPacket.dataBytes 0
  let p1 := s0.readUint32
  let p2 := p1.2.readUint32
  let p3 := p2.2.readString (match p2.1 with | ReadResult.ok len => len | _ => 0)
  let p4 := p3.2.readUint32
  let p5 := p4.2.readUint8
  (p1.1, p3.1, p4.1, p5.1)

/-- A peer wrapper whose engine connection is in the zombie state. -/
def zombiePeer : Peer :=
  { nativePeer_ := some { handle := 1, state := PeerState.zombie, roundTripTime := 0 } }

/-- A peer wrapper whose native handle is null (moved-from wrapper, or
a wrapper constructed around `nullptr`). -/
def nullPeer : Peer := { nativePeer_ := none }

theorem bytesOfUint_length (w v : Nat) : (bytesOfUint w v).length = w := by
  induction w generalizing v with
  | zero => rfl
  | succ n ih => simp [bytesOfUint, ih]

theorem uintOfBytes_bytesOfUint (w v : Nat) :
    uintOfBytes (bytesOfUint w v) = v % 2 ^ (8 * w) := by
  induction w generalizing v with
  | zero => simp [bytesOfUint, uintOfBytes, Nat.mod_one]
  | succ n ih =>
    have h256 : (2 : Nat) ^ (8 * (n + 1)) = 256 * 2 ^ (8 * n) := by
      rw [show 8 * (n + 1) = 8 + 8 * n by ring, pow_add]
      norm_num
    rw [bytesOfUint, uintOfBytes, ih, h256, Nat.mod_mul]

theorem read_eq (d : List Nat) (p n : Nat) :
    (PacketReader.mk d p).read n
      = if (p + n) % 2 ^ 64 > d.length then (ReadResult.fail, PacketReader.mk d p)
        else if p + n ≤ d.length then
          (ReadResult.ok ((d.drop p).take n), PacketReader.mk d (p + n))
        else (ReadResult.outOfBounds, PacketReader.mk d p) := rfl

theorem readUint8_eq (d : List Nat) (p : Nat) :
    (PacketReader.mk d p).readUint8
      = if p ≥ d.length then (none, PacketReader.mk d p)
        else (some (d.getD p 0), PacketReader.mk d (p + 1)) := rfl

theorem readString_eq_read (r : PacketReader) (n : Nat) :
    r.readString n = r.read n := rfl

theorem read_append (pre mid suf : List Nat) :
    (PacketReader.mk (pre ++ (mid ++ suf)) pre.length).read mid.length
      = (ReadResult.ok mid, PacketReader.mk (pre ++ (mid ++ suf)) (pre.length + mid.length)) := by
  have hg1 : ¬ ((pre.length + mid.length) % 2 ^ 64 > (pre ++ (mid ++ suf)).length) := by
    have hle : (pre.length + mid.length) % 2 ^ 64 ≤ pre.length + mid.length :=
      Nat.mod_le _ _
    simp only [List.length_append, gt_iff_lt, not_lt]
    omega
  have hg2 : pre.length + mid.length ≤ (pre ++ (mid ++ suf)).length := by
    simp only [List.length_append]
    omega
  rw [read_eq, if_neg hg1, if_pos hg2, List.drop_left, List.take_left]

theorem readFixed_append (pre suf : List Nat) (w v : Nat) :
    (PacketReader.mk (pre ++ (bytesOfUint w v ++ suf)) pre.length).read w
      = (ReadResult.ok (bytesOfUint w v),
         PacketReader.mk (pre ++ (bytesOfUint w v ++ suf)) (pre.length + w)) := by
  have h := read_append pre (bytesOfUint w v) suf
  rwa [bytesOfUint_length] at h

theorem getD_append_self (pre suf : List Nat) (v : Nat) :
    (pre ++ v :: suf).getD pre.length 0 = v := by
  rw [List.getD_eq_getElem?_getD, List.getElem?_append_right (le_refl pre.length)]
  simp

theorem readUint8_append (pre suf : List Nat) (v : Nat) :
    (PacketReader.mk (pre ++ v :: suf) pre.length).readUint8
      = (some v, PacketReader.mk (pre ++ v :: suf) (pre.length + 1)) := by
  have hguard : ¬ (pre.length ≥ (pre ++ v :: suf).length) := by
    simp only [List.length_append, List.length_cons, ge_iff_le, not_le]
    omega
  rw [readUint8_eq, if_neg hguard, getD_append_self]

theorem readUint16_append (pre suf : List Nat) (v : Nat) :
    (PacketReader.mk (pre ++ (bytesOfUint 2 v ++ suf)) pre.length).readUint16
      = (ReadResult.ok (v % 2 ^ 16), PacketReader.mk (pre ++ (bytesOfUint 2 v ++ suf)) (pre.length + 2)) := by
  unfold PacketReader.readUint16
  rw [readFixed_append]
  simp [uintOfBytes_bytesOfUint]

theorem readUint32_append (pre suf : List Nat) (v : Nat) :
    (PacketReader.mk (pre ++ (bytesOfUint 4 v ++ suf)) pre.length).readUint32
      = (ReadResult.ok (v % 2 ^ 32), PacketReader.mk (pre ++ (bytesOfUint 4 v ++ suf)) (pre.length + 4)) := by
  unfold PacketReader.readUint32
  rw [readFixed_append]
  simp [uintOfBytes_bytesOfUint]

theorem readUint64_append (pre suf : List Nat) (v : Nat) :
    (PacketReader.mk (pre ++ (bytesOfUint 8 v ++ suf)) pre.length).readUint64
      = (ReadResult.ok (v % 2 ^ 64), PacketReader.mk (pre ++ (bytesOfUint 8 v ++ suf)) (pre.length + 8)) := by
  unfold PacketReader.readUint64
  rw [readFixed_append]
  simp [uintOfBytes_bytesOfUint]

theorem readString_append (pre s suf : List Nat) :
    (PacketReader.mk (pre ++ (s ++ suf)) pre.length).readString s.length
      = (ReadResult.ok s, PacketReader.mk (pre ++ (s ++ suf)) (pre.length + s.length)) := by
  rw [readString_eq_read]
  exact read_append pre s suf

/-- C1: framing round-trip — for every fixed-width value written by
`PacketBuilder`, reading the same type at the same relative offset
yields the value unchanged; strings round-trip through their uint32
length prefix; and the spec's concrete write sequence produces a
26-byte packet whose sequential reads reproduce the written values. -/
theorem C1_framing_round_trip :
    (∀ (pre suf : List Nat) (v : Nat), v < 2 ^ 8 →
      ((PacketReader.mk ((((PacketBuilder.mk pre).writeUint8 v).write suf).buffer_) pre.length).readUint8).1
        = some v) ∧
    (∀ (pre suf : List Nat) (v : Nat), v < 2 ^ 16 →
      ((PacketReader.mk ((((PacketBuilder.mk pre).writeUint16 v).write suf).buffer_) pre.length).readUint16).1
        = ReadResult.ok v) ∧
    (∀ (pre suf : List Nat) (v : Nat), v < 2 ^ 32 →
      ((PacketReader.mk ((((PacketBuilder.mk pre).writeUint32 v).write suf).buffer_) pre.length).readUint32).1
        = ReadResult.ok v) ∧
    (∀ (pre suf : List Nat) (v : Nat), v < 2 ^ 64 →
      ((PacketReader.mk ((((PacketBuilder.mk pre).writeUint64 v).write suf).buffer_) pre.length).readUint64).1
        = ReadResult.ok v) ∧
    (∀ (pre suf s : List Nat), s.length < 2 ^ 32 →
      ((PacketReader.mk ((((PacketBuilder.mk pre).writeString s).write suf).buffer_) pre.length).readUint32).1
        = ReadResult.ok s.length ∧
      ((((PacketReader.mk ((((PacketBuilder.mk pre).writeString s).write suf).buffer_) pre.length).readUint32).2).readString s.length).1
        = ReadResult.ok s) ∧
    demoPacket.size = 26 ∧
    demoReads = (ReadResult.ok 0x12345678, ReadResult.ok helloBytes, ReadResult.ok 314159, some 255) := by
  refine ⟨?_, ?_, ?_, ?_, ?_, ?_, ?_⟩
  · intro pre suf v hv
    norm_num at hv
    have hbuf : (((PacketBuilder.mk pre).writeUint8 v).write suf).buffer_ = pre ++ v % 256 :: suf := by
      simp [PacketBuilder.writeUint8, PacketBuilder.write]
    rw [hbuf, readUint8_append]
    simp [Nat.mod_eq_of_lt hv]
  · intro pre suf v hv
    norm_num at hv
    have hbuf : (((PacketBuilder.mk pre).writeUint16 v).write suf).buffer_
        = pre ++ (bytesOfUint 2 v ++ suf) := by
      simp [PacketBuilder.writeUint16, PacketBuilder.write]
    rw [hbuf, readUint16_append]
    simp [Nat.mod_eq_of_lt hv]
  · intro pre suf v hv
    norm_num at hv
    have hbuf : (((PacketBuilder.mk pre).writeUint32 v).write suf).buffer_
        = pre ++ (bytesOfUint 4 v ++ suf) := by
      simp [PacketBuilder.writeUint32, PacketBuilder.write]
    rw [hbuf, readUint32_append]
    simp [Nat.mod_eq_of_lt hv]
  · intro pre suf v hv
    norm_num at hv
    have hbuf : (((PacketBuilder.mk pre).writeUint64 v).write suf).buffer_
        = pre ++ (bytesOfUint 8 v ++ suf) := by
      simp [PacketBuilder.writeUint64, PacketBuilder.write]
    rw [hbuf, readUint64_append]
    simp [Nat.mod_eq_of_lt hv]
  · intro pre suf s hs
    norm_num at hs
    have hbuf : (((PacketBuilder.mk pre).writeString s).write suf).buffer_
        = pre ++ (bytesOfUint 4 s.length ++ (s ++ suf)) := by
      simp [PacketBuilder.writeString, PacketBuilder.writeUint32, PacketBuilder.write]
    have h1 := readUint32_append pre (s ++ suf) s.length
    have h2 := read_append (pre ++ bytesOfUint 4 s.length) s suf
    rw [List.append_assoc, List.length_append, bytesOfUint_length] at h2
    constructor
    · rw [hbuf, h1]
      simp [Nat.mod_eq_of_lt hs]
    · rw [hbuf, readString_eq_read, h1]
      simp [h2]
  · decide
  · decide

/-- Witness for C1 at concrete inputs. -/
theorem C1_framing_round_trip_witness :
    ((PacketReader.mk ((((PacketBuilder.mk [7]).writeUint8 5).write [9]).buffer_) 1).readUint8).1 = some 5 ∧
    ((PacketReader.mk ((((PacketBuilder.mk [7]).writeUint16 300).write [9]).buffer_) 1).readUint16).1 = ReadResult.ok 300 ∧
    ((PacketReader.mk ((((PacketBuilder.mk [7]).writeUint32 70000).write [9]).buffer_) 1).readUint32).1 = ReadResult.ok 70000 ∧
    ((PacketReader.mk ((((PacketBuilder.mk [7]).writeUint64 4294967296).write [9]).buffer_) 1).readUint64).1 = ReadResult.ok 4294967296 ∧
    ((PacketReader.mk ((((PacketBuilder.mk [7]).writeString [1, 2, 3]).write [9]).buffer_) 1).readUint32).1 = ReadResult.ok 3 :=
  ⟨C1_framing_round_trip.1 [7] [9] 5 (by norm_num),
   C1_framing_round_trip.2.1 [7] [9] 300 (by norm_num),
   C1_framing_round_trip.2.2.1 [7] [9] 70000 (by norm_num),
   C1_framing_round_trip.2.2.2.1 [7] [9] 4294967296 (by norm_num),
   (C1_framing_round_trip.2.2.2.2.1 [7] [9] [1, 2, 3] (by norm_num)).1⟩

/-- C2: the claim is right and the code has an overflow hole — at
position 1 of a 2-byte buffer (1 byte remaining), `read` of
`SIZE_MAX = 2 ^ 64 - 1` bytes does not fail: the `size_t` guard
computes `(1 + (2 ^ 64 - 1)) mod 2 ^ 64 = 0`, which is not greater
than the buffer size, so the check passes and the `memcpy` runs out of
bounds — undefined behavior, contradicting "fails with an underflow
error, never undefined behavior". `readString` has the same wrapped
guard; a non-wrapping oversized request (here `read 2`) does fail
cleanly as the claim describes. -/
theorem C2_oversized_read_out_of_bounds :
    2 ^ 64 - 1 > (PacketReader.mk [1, 2] 1).remaining ∧
    (PacketReader.mk [1, 2] 1).read (2 ^ 64 - 1)
      = (ReadResult.outOfBounds, PacketReader.mk [1, 2] 1) ∧
    (PacketReader.mk [1, 2] 1).readString (2 ^ 64 - 1)
      = (ReadResult.outOfBounds, PacketReader.mk [1, 2] 1) ∧
    (PacketReader.mk [1, 2] 1).read 2 = (ReadResult.fail, PacketReader.mk [1, 2] 1) := by
  decide

/-- C8 counterexample: `skip` does not clamp to `min(position + n, size)` —
at position 1 of a 2-byte buffer, `skip(SIZE_MAX = 2 ^ 64 - 1)` wraps
the `size_t` sum to 0 and sets the position to 0, while the claimed
formula gives `min(1 + (2 ^ 64 - 1), 2) = 2`. -/
theorem C8_skip_wrap_counterexample :
    ((PacketReader.mk [1, 2] 1).skip (2 ^ 64 - 1)).position_ = 0 ∧
    min ((PacketReader.mk [1, 2] 1).position_ + (2 ^ 64 - 1)) (PacketReader.mk [1, 2] 1).size
      = 2 ∧
    ¬ (((PacketReader.mk [1, 2] 1).skip (2 ^ 64 - 1)).position_
        = min ((PacketReader.mk [1, 2] 1).position_ + (2 ^ 64 - 1))
            (PacketReader.mk [1, 2] 1).size) := by
  decide

/-- C8 amended: PacketReader cursor invariant — `position ≤ size` holds
at construction and is preserved by every operation that completes
without undefined behavior (an out-of-bounds read, reachable only
through the `size_t` guard wrap, is UB and excluded); successful reads
advance the cursor by exactly the bytes consumed; `seek` and `skip`
never error but clamp into `[0, size]`: `seek` to `min p size`, `skip`
to the `size_t`-wrapped sum `(position + n) mod 2 ^ 64` clamped to
`size`. -/
theorem C8_reader_cursor_invariant (r : PacketReader) (hinv : r.position_ ≤ r.size) :
    (∀ d : List Nat, (PacketReader.mk d 0).position_ = 0 ∧
      (PacketReader.mk d 0).position_ ≤ (PacketReader.mk d 0).size) ∧
    (∀ (n : Nat) (bs : List Nat) (r2 : PacketReader),
      r.read n = (ReadResult.ok bs, r2) → r2.position_ = r.position_ + n ∧ bs.length = n) ∧
    (∀ n : Nat, (r.read n).1 ≠ ReadResult.outOfBounds → ((r.read n).2).position_ ≤ r.size) ∧
    (∀ (v : Nat) (r2 : PacketReader),
      r.readUint8 = (some v, r2) → r2.position_ = r.position_ + 1) ∧
    (((r.readUint8).2).position_ ≤ r.size) ∧
    (∀ (v : Nat) (r2 : PacketReader),
      r.readUint16 = (ReadResult.ok v, r2) → r2.position_ = r.position_ + 2) ∧
    ((r.readUint16).1 ≠ ReadResult.outOfBounds → ((r.readUint16).2).position_ ≤ r.size) ∧
    (∀ (v : Nat) (r2 : PacketReader),
      r.readUint32 = (ReadResult.ok v, r2) → r2.position_ = r.position_ + 4) ∧
    ((r.readUint32).1 ≠ ReadResult.outOfBounds → ((r.readUint32).2).position_ ≤ r.size) ∧
    (∀ (v : Nat) (r2 : PacketReader),
      r.readUint64 = (ReadResult.ok v, r2) → r2.position_ = r.position_ + 8) ∧
    ((r.readUint64).1 ≠ ReadResult.outOfBounds → ((r.readUint64).2).position_ ≤ r.size) ∧
    (∀ (n : Nat) (s : List Nat) (r2 : PacketReader),
      r.readString n = (ReadResult.ok s, r2) → r2.position_ = r.position_ + n) ∧
    (∀ n : Nat, (r.readString n).1 ≠ ReadResult.outOfBounds →
      ((r.readString n).2).position_ ≤ r.size) ∧
    (∀ p : Nat, (r.seek p).position_ = min p r.size) ∧
    (∀ n : Nat, (r.skip n).position_ = min ((r.position_ + n) % 2 ^ 64) r.size) ∧
    (r.reset).position_ = 0 := by
  have hadv : ∀ (n : Nat) (bs : List Nat) (r2 : PacketReader),
      r.read n = (ReadResult.ok bs, r2) → r2.position_ = r.position_ + n ∧ bs.length = n := by
    intro n bs r2 heq
    unfold PacketReader.read at heq
    by_cases hc1 : (r.position_ + n) % 2 ^ 64 > r.data_.length
    · rw [if_pos hc1] at heq
      exact absurd heq (by simp)
    · rw [if_neg hc1] at heq
      by_cases hc2 : r.position_ + n ≤ r.data_.length
      · rw [if_pos hc2] at heq
        injection heq with h1 h2
        injection h1 with h1
        constructor
        · rw [← h2]
        · rw [← h1]
          simp only [List.length_take, List.length_drop]
          omega
      · rw [if_neg hc2] at heq
        exact absurd heq (by simp)
  have hle : ∀ n : Nat, (r.read n).1 ≠ ReadResult.outOfBounds →
      ((r.read n).2).position_ ≤ r.size := by
    intro n hne
    unfold PacketReader.read at hne ⊢
    by_cases hc1 : (r.position_ + n) % 2 ^ 64 > r.data_.length
    · rw [if_pos hc1]
      exact hinv
    · rw [if_neg hc1] at hne ⊢
      by_cases hc2 : r.position_ + n ≤ r.data_.length
      · rw [if_pos hc2]
        show r.position_ + n ≤ r.size
        unfold PacketReader.size
        omega
      · rw [if_neg hc2] at hne
        exact absurd rfl hne
  have h16snd : (r.readUint16).2 = (r.read 2).2 := by
    unfold PacketReader.readUint16
    rcases hx : r.read 2 with ⟨o, r2⟩
    cases o <;> rfl
  have h32snd : (r.readUint32).2 = (r.read 4).2 := by
    unfold PacketReader.readUint32
    rcases hx : r.read 4 with ⟨o, r2⟩
    cases o <;> rfl
  have h64snd : (r.readUint64).2 = (r.read 8).2 := by
    unfold PacketReader.readUint64
    rcases hx : r.read 8 with ⟨o, r2⟩
    cases o <;> rfl
  have hne16 : (r.readUint16).1 ≠ ReadResult.outOfBounds →
      (r.read 2).1 ≠ ReadResult.outOfBounds := by
    intro hne
    unfold PacketReader.readUint16 at hne
    rcases hx : r.read 2 with ⟨o, r2⟩
    rw [hx] at hne
    cases o with
    | ok bs => simp
    | fail => simp
    | outOfBounds => exact absurd rfl hne
  have hne32 : (r.readUint32).1 ≠ ReadResult.outOfBounds →
      (r.read 4).1 ≠ ReadResult.outOfBounds := by
    intro hne
    unfold PacketReader.readUint32 at hne
    rcases hx : r.read 4 with ⟨o, r2⟩
    rw [hx] at hne
    cases o with
    | ok bs => simp
    | fail => simp
    | outOfBounds => exact absurd rfl hne
  have hne64 : (r.readUint64).1 ≠ ReadResult.outOfBounds →
      (r.read 8).1 ≠ ReadResult.outOfBounds := by
    intro hne
    unfold PacketReader.readUint64 at hne
    rcases hx : r.read 8 with ⟨o, r2⟩
    rw [hx] at hne
    cases o with
    | ok bs => simp
    | fail => simp
    | outOfBounds => exact absurd rfl hne
  have hadv16 : ∀ (v : Nat) (r2 : PacketReader),
      r.readUint16 = (ReadResult.ok v, r2) → r2.position_ = r.position_ + 2 := by
    intro v r2 heq
    unfold PacketReader.readUint16 at heq
    rcases hx : r.read 2 with ⟨o, r2x⟩
    rw [hx] at heq
    cases o with
    | ok bs =>
      injection heq with h1 h2
      exact h2 ▸ (hadv 2 bs r2x hx).1
    | fail => exact absurd heq (by simp)
    | outOfBounds => exact absurd heq (by simp)
  have hadv32 : ∀ (v : Nat) (r2 : PacketReader),
      r.readUint32 = (ReadResult.ok v, r2) → r2.position_ = r.position_ + 4 := by
    intro v r2 heq
    unfold PacketReader.readUint32 at heq
    rcases hx : r.read 4 with ⟨o, r2x⟩
    rw [hx] at heq
    cases o with
    | ok bs =>
      injection heq with h1 h2
      exact h2 ▸ (hadv 4 bs r2x hx).1
    | fail => exact absurd heq (by simp)
    | outOfBounds => exact absurd heq (by simp)
  have hadv64 : ∀ (v : Nat) (r2 : PacketReader),
      r.readUint64 = (ReadResult.ok v, r2) → r2.position_ = r.position_ + 8 := by
    intro v r2 heq
    unfold PacketReader.readUint64 at heq
    rcases hx : r.read 8 with ⟨o, r2x⟩
    rw [hx] at heq
    cases o with
    | ok bs =>
      injection heq with h1 h2
      exact h2 ▸ (hadv 8 bs r2x hx).1
    | fail => exact absurd heq (by simp)
    | outOfBounds => exact absurd heq (by simp)
  refine ⟨fun d => ⟨rfl, Nat.zero_le _⟩, hadv, hle, ?_, ?_, hadv16, ?_, hadv32, ?_, hadv64, ?_,
          ?_, ?_, ?_, ?_, rfl⟩
  · intro v r2 heq
    unfold PacketReader.readUint8 at heq
    by_cases hc : r.position_ ≥ r.data_.length
    · rw [if_pos hc] at heq
      exact absurd heq (by simp)
    · rw [if_neg hc] at heq
      injection heq with h1 h2
      rw [← h2]
  · unfold PacketReader.readUint8
    by_cases hc : r.position_ ≥ r.data_.length
    · rw [if_pos hc]
      exact hinv
    · rw [if_neg hc]
      show r.position_ + 1 ≤ r.size
      unfold PacketReader.size
      omega
  · intro hne
    rw [h16snd]
    exact hle 2 (hne16 hne)
  · intro hne
    rw [h32snd]
    exact hle 4 (hne32 hne)
  · intro hne
    rw [h64snd]
    exact hle 8 (hne64 hne)
  · intro n s r2 heq
    rw [readString_eq_read] at heq
    exact (hadv n s r2 heq).1
  · intro n hne
    rw [readString_eq_read] at hne ⊢
    exact hle n hne
  · intro p
    unfold PacketReader.seek PacketReader.size
    by_cases hc : p < r.data_.length
    · rw [if_pos hc]
      show p = min p r.data_.length
      omega
    · rw [if_neg hc]
      show r.data_.length = min p r.data_.length
      omega
  · intro n
    unfold PacketReader.skip PacketReader.size
    by_cases hc : (r.position_ + n) % 2 ^ 64 < r.data_.length
    · rw [if_pos hc]
      show (r.position_ + n) % 2 ^ 64 = min ((r.position_ + n) % 2 ^ 64) r.data_.length
      omega
    · rw [if_neg hc]
      show r.data_.length = min ((r.position_ + n) % 2 ^ 64) r.data_.length
      omega

/-- C3: packet single-use on transfer — handing a wrapper to
`Peer::send` or `Host::broadcast` consumes it (the caller's pointer is
null afterwards), and sending the moved-from wrapper again returns
`false` and hands nothing to the engine (no re-send, no double free). -/
theorem C3_packet_single_use (pn : NativePeer) (hh ch ch2 : Nat) (e1 e2 : Bool)
    (np : NativePacket) (peers : List WeakPeer) (nid : Nat) :
    ((Peer.mk (some pn)).send ch e1 (some (Packet.mk (some np)))).submitted = [np] ∧
    ((Peer.mk (some pn)).send ch e1 (some (Packet.mk (some np)))).callerPtr = none ∧
    ((Peer.mk (some pn)).send ch2 e2
        ((Peer.mk (some pn)).send ch e1 (some (Packet.mk (some np)))).callerPtr)
      = { result := false, callerPtr := none, submitted := [] } ∧
    ((Host.mk (some hh) peers nid).broadcast ch (some (Packet.mk (some np)))).submitted = [np] ∧
    ((Host.mk (some hh) peers nid).broadcast ch (some (Packet.mk (some np)))).callerPtr = none ∧
    ((Host.mk (some hh) peers nid).broadcast ch2
        ((Host.mk (some hh) peers nid).broadcast ch (some (Packet.mk (some np)))).callerPtr).submitted
      = [] ∧
    ((Peer.mk (some pn)).send ch2 e2
        ((Host.mk (some hh) peers nid).broadcast ch (some (Packet.mk (some np)))).callerPtr).result
      = false :=
  ⟨rfl, rfl, rfl, rfl, rfl, rfl, rfl⟩

/-- C4 counterexample: for a peer whose engine state is zombie,
`Peer::state()` does not report `disconnected` (the raw `static_cast`
surfaces `zombie` unchanged) and `isDisconnected()` is not true. -/
theorem C4_zombie_counterexample :
    ¬ (zombiePeer.state = PeerState.disconnected ∧ zombiePeer.isDisconnected = true) := by
  decide

/-- C4 amended: for every Peer whose engine handle is in the zombie
state, `state()` reports `zombie` verbatim — it does not collapse to
`disconnected` — and `isDisconnected()` returns `false`. -/
theorem C4_zombie_not_collapsed (np : NativePeer) (hz : np.state = PeerState.zombie) :
    (Peer.mk (some np)).state = PeerState.zombie ∧
    (Peer.mk (some np)).isDisconnected = false := by
  have h1 : (Peer.mk (some np)).state = PeerState.zombie := by
    simp [Peer.state, hz]
  refine ⟨h1, ?_⟩
  unfold Peer.isDisconnected
  rw [h1]
  decide

/-- Witness for the amended C4 at a concrete zombie peer. -/
theorem C4_zombie_not_collapsed_witness :
    zombiePeer.state = PeerState.zombie ∧ zombiePeer.isDisconnected = false :=
  C4_zombie_not_collapsed { handle := 1, state := PeerState.zombie, roundTripTime := 0 } rfl

/-- C5: invalid-handle tolerance — with a null native handle, `send`
returns `false` (a total function, never an exception), `state()`
reports `disconnected`, and `disconnect`/`disconnectNow`/
`disconnectLater`/`ping` issue no engine request at all. -/
theorem C5_invalid_handle_tolerance (e : Bool) (ch dat : Nat) (pkt : Option Packet) :
    (nullPeer.send ch e pkt).result = false ∧
    nullPeer.state = PeerState.disconnected ∧
    nullPeer.isDisconnected = true ∧
    nullPeer.disconnect dat = [] ∧
    nullPeer.disconnectNow dat = [] ∧
    nullPeer.disconnectLater dat = [] ∧
    nullPeer.ping = [] ∧
    nullPeer.roundTripTime = 0 := by
  refine ⟨?_, rfl, rfl, rfl, rfl, rfl, rfl, rfl⟩
  cases pkt <;> rfl

/-- Witness for the amended C8 at a concrete reader. -/
theorem C8_reader_cursor_invariant_witness :
    ((PacketReader.mk [1, 2, 3] 3).position_ = 1 + 2 ∧ ([2, 3] : List Nat).length = 2) ∧
    (((PacketReader.mk [1, 2, 3] 1).read 2).2).position_ ≤ (PacketReader.mk [1, 2, 3] 1).size ∧
    ((PacketReader.mk [1, 2, 3] 1).seek 5).position_ = min 5 3 ∧
    ((PacketReader.mk [1, 2, 3] 1).skip 7).position_ = min ((1 + 7) % 2 ^ 64) 3 := by
  have h := C8_reader_cursor_invariant (PacketReader.mk [1, 2, 3] 1) (by decide)
  exact ⟨h.2.1 2 [2, 3] (PacketReader.mk [1, 2, 3] 3) (by decide),
         h.2.2.1 2 (by decide),
         h.2.2.2.2.2.2.2.2.2.2.2.2.2.1 5,
         h.2.2.2.2.2.2.2.2.2.2.2.2.2.2.1 7⟩

theorem registerGlobals_cons (d : EventDispatcher) (g : Nat) (rest : List Nat) :
    registerGlobals d (g :: rest) = registerGlobals (d.onReceive g) rest := rfl

theorem registerGlobals_spec (gs : List Nat) : ∀ d : EventDispatcher,
    (registerGlobals d gs).receiveHandlers_ = d.receiveHandlers_ ++ gs ∧
    (registerGlobals d gs).channelHandlers_ = d.channelHandlers_ := by
  induction gs with
  | nil =>
    intro d
    exact ⟨by simp [registerGlobals], rfl⟩
  | cons g rest ih =>
    intro d
    rw [registerGlobals_cons]
    obtain ⟨h1, h2⟩ := ih (d.onReceive g)
    constructor
    · rw [h1]
      simp [EventDispatcher.onReceive]
    · rw [h2]
      rfl

theorem channelFind_insert_same (m : List (Nat × List Nat)) (ch handler : Nat) :
    channelFind (channelInsert m ch handler) ch
      = some ((channelFind m ch).getD [] ++ [handler]) := by
  induction m with
  | nil => simp [channelInsert, channelFind]
  | cons e rest ih =>
    obtain ⟨c, hs⟩ := e
    by_cases hc : c = ch
    · subst hc
      simp [channelInsert, channelFind]
    · simp only [channelInsert, if_neg hc]
      simp only [channelFind, List.find?] at ih ⊢
      rw [show ((c, hs).1 == ch) = false by simp [hc]]
      exact ih

theorem channelFind_insert_other (m : List (Nat × List Nat)) (ch ch2 handler : Nat)
    (hne : ch2 ≠ ch) :
    channelFind (channelInsert m ch handler) ch2 = channelFind m ch2 := by
  have hcc : (ch == ch2) = false := by
    simpa using fun hd => hne hd.symm
  induction m with
  | nil => simp [channelInsert, channelFind, List.find?, hcc]
  | cons e rest ih =>
    obtain ⟨c, hs⟩ := e
    by_cases hc : c = ch
    · have hcf : (c == ch2) = false := by
        rw [hc]
        exact hcc
      simp [channelInsert, if_pos hc, channelFind, List.find?, hcf, ih]
    · by_cases hc2 : c = ch2
      · simp only [channelInsert, if_neg hc]
        simp only [channelFind, List.find?]
        rw [show (c == ch2) = true by simpa using hc2]
      · have hcf : (c == ch2) = false := by simpa using hc2
        simp only [channelInsert, if_neg hc]
        simp only [channelFind, List.find?] at ih ⊢
        rw [hcf]
        exact ih

theorem registerChannel_cons (d : EventDispatcher) (ch c : Nat) (rest : List Nat) :
    registerChannel d ch (c :: rest) = registerChannel (d.onReceiveChannel ch c) ch rest := rfl

theorem registerChannel_spec (cs : List Nat) : ∀ (d : EventDispatcher) (ch : Nat),
    (registerChannel d ch cs).receiveHandlers_ = d.receiveHandlers_ ∧
    (channelFind (registerChannel d ch cs).channelHandlers_ ch).getD []
      = (channelFind d.channelHandlers_ ch).getD [] ++ cs ∧
    (∀ ch2 : Nat, ch2 ≠ ch →
      channelFind (registerChannel d ch cs).channelHandlers_ ch2
        = channelFind d.channelHandlers_ ch2) := by
  induction cs with
  | nil =>
    intro d ch
    exact ⟨rfl, by simp [registerChannel], fun ch2 _ => rfl⟩
  | cons c rest ih =>
    intro d ch
    rw [registerChannel_cons]
    obtain ⟨h1, h2, h3⟩ := ih (d.onReceiveChannel ch c) ch
    refine ⟨by rw [h1]; rfl, ?_, ?_⟩
    · rw [h2]
      rw [show (d.onReceiveChannel ch c).channelHandlers_
            = channelInsert d.channelHandlers_ ch c from rfl]
      rw [channelFind_insert_same]
      simp
    · intro ch2 hne
      rw [h3 ch2 hne]
      rw [show (d.onReceiveChannel ch c).channelHandlers_
            = channelInsert d.channelHandlers_ ch c from rfl]
      exact channelFind_insert_other _ _ _ _ hne

/-- C7: dispatch ordering — with globals `gs` registered via
`onReceive` in order, channel-`ch` handlers `cs` and channel-`ch2`
handlers `cs2` registered via the channel overload, dispatching a
receive event on `ch` runs exactly `gs ++ cs` in that order (globals in
registration order, the channel's handlers after all of them, the other
channel's handlers never), and dispatching on `ch2` runs `gs ++ cs2`. -/
theorem C7_dispatch_ordering (gs cs cs2 : List Nat) (ch ch2 : Nat) (hne : ch2 ≠ ch) :
    (registerChannel (registerChannel (registerGlobals (EventDispatcher.mk [] [] [] []) gs) ch cs) ch2 cs2).dispatchReceive ch
      = gs ++ cs ∧
    (registerChannel (registerChannel (registerGlobals (EventDispatcher.mk [] [] [] []) gs) ch cs) ch2 cs2).dispatchReceive ch2
      = gs ++ cs2 := by
  obtain ⟨hg1, hg2⟩ := registerGlobals_spec gs (EventDispatcher.mk [] [] [] [])
  obtain ⟨ha1, ha2, ha3⟩ :=
    registerChannel_spec cs (registerGlobals (EventDispatcher.mk [] [] [] []) gs) ch
  obtain ⟨hb1, hb2, hb3⟩ :=
    registerChannel_spec cs2
      (registerChannel (registerGlobals (EventDispatcher.mk [] [] [] []) gs) ch cs) ch2
  constructor
  · unfold EventDispatcher.dispatchReceive
    rw [hb1, ha1, hg1, hb3 ch (Ne.symm hne), ha2, hg2]
    simp [channelFind]
  · unfold EventDispatcher.dispatchReceive
    rw [hb1, ha1, hg1, hb2, ha3 ch2 hne, hg2]
    simp [channelFind]

/-- Witness for C7 at concrete handler lists and channels. -/
theorem C7_dispatch_ordering_witness :
    (registerChannel (registerChannel (registerGlobals (EventDispatcher.mk [] [] [] []) [1, 2]) 0 [3]) 5 [4]).dispatchReceive 0
      = [1, 2] ++ [3] ∧
    (registerChannel (registerChannel (registerGlobals (EventDispatcher.mk [] [] [] []) [1, 2]) 0 [3]) 5 [4]).dispatchReceive 5
      = [1, 2] ++ [4] :=
  C7_dispatch_ordering [1, 2] [3] [4] 0 5 (by decide)

theorem getPeersAux_spec (l : List WeakPeer) :
    getPeersAux l
      = ((l.filter (fun w => !w.expired)).map (fun w => (w.wrapperId, w.wrapper)),
         l.filter (fun w => !w.expired)) := by
  induction l with
  | nil => rfl
  | cons w rest ih =>
    by_cases hw : w.expired
    · simp [getPeersAux, ih, WeakPeer.lock, hw, List.filter_cons]
    · simp [getPeersAux, ih, WeakPeer.lock, hw, List.filter_cons]

theorem getPeers_live (h : Host) :
    (h.getPeers).1
      = (h.peers_.filter (fun w => !w.expired)).map (fun w => (w.wrapperId, w.wrapper)) := by
  unfold Host.getPeers
  rw [getPeersAux_spec]

theorem getPeers_registry (h : Host) :
    ((h.getPeers).2).peers_ = h.peers_.filter (fun w => !w.expired) := by
  unfold Host.getPeers
  rw [getPeersAux_spec]

/-- C6: weak-registry pruning — after every strong reference to the
wrapper with identity `i` is dropped, `getPeers()` no longer returns
that wrapper and erases its expired entry from the registry, and
`peerCount()` (the number of not-yet-expired weak entries) has
decreased by exactly the entries that pointed at it — no disconnect
event involved. -/
theorem C6_weak_registry_pruning (h : Host) (i : Nat)
    (hmem : ∃ w ∈ h.peers_, w.wrapperId = i ∧ w.expired = false) :
    (∀ p ∈ ((h.dropStrong i).getPeers).1, p.1 ≠ i) ∧
    (∀ w ∈ (((h.dropStrong i).getPeers).2).peers_, w.wrapperId ≠ i) ∧
    (h.dropStrong i).peerCount
        + (h.peers_.filter (fun w => w.wrapperId == i && !w.expired)).length
      = h.peerCount ∧
    (h.dropStrong i).peerCount < h.peerCount ∧
    ((h.dropStrong i).getPeers).1.length = (h.dropStrong i).peerCount := by
  have key : ∀ w ∈ (h.dropStrong i).peers_, (!w.expired) = true → w.wrapperId ≠ i := by
    intro w hw hexp
    unfold Host.dropStrong at hw
    simp only [List.mem_map] at hw
    obtain ⟨w0, hw0, hfw⟩ := hw
    by_cases hc : w0.wrapperId = i
    · rw [if_pos hc] at hfw
      rw [← hfw] at hexp
      simp at hexp
    · rw [if_neg hc] at hfw
      rw [← hfw]
      exact hc
  have hcount : ∀ l : List WeakPeer,
      ((l.map (fun w => if w.wrapperId = i then { w with expired := true } else w)).filter
          (fun w => !w.expired)).length
        + (l.filter (fun w => w.wrapperId == i && !w.expired)).length
      = (l.filter (fun w => !w.expired)).length := by
    intro l
    induction l with
    | nil => rfl
    | cons w rest ih =>
      have hupd : ({ w with expired := true } : WeakPeer).expired = true := rfl
      by_cases hc : w.wrapperId = i
      · have hbeq : (w.wrapperId == i) = true := by simpa using hc
        cases he : w.expired
        · simp [List.filter_cons, hc, hbeq, he, hupd]
          omega
        · simp [List.filter_cons, hc, hbeq, he, hupd]
          omega
      · have hbeq : (w.wrapperId == i) = false := by simpa using hc
        cases he : w.expired
        · simp [List.filter_cons, hc, hbeq, he, hupd]
          omega
        · simp [List.filter_cons, hc, hbeq, he, hupd]
          omega
  have hc3 : (h.dropStrong i).peerCount
        + (h.peers_.filter (fun w => w.wrapperId == i && !w.expired)).length
      = h.peerCount := by
    unfold Host.peerCount Host.dropStrong
    exact hcount h.peers_
  have hpos : 0 < (h.peers_.filter (fun w => w.wrapperId == i && !w.expired)).length := by
    obtain ⟨w, hw, hid, hexp⟩ := hmem
    have hmemf : w ∈ h.peers_.filter (fun w => w.wrapperId == i && !w.expired) := by
      rw [List.mem_filter]
      exact ⟨hw, by simp [hid, hexp]⟩
    exact List.length_pos_of_mem hmemf
  refine ⟨?_, ?_, hc3, by omega, ?_⟩
  · intro p hp
    rw [getPeers_live] at hp
    simp only [List.mem_map, List.mem_filter] at hp
    obtain ⟨w, ⟨hw, hexp⟩, hpw⟩ := hp
    rw [← hpw]
    exact key w hw hexp
  · intro w hw
    rw [getPeers_registry] at hw
    rw [List.mem_filter] at hw
    exact key w hw.1 hw.2
  · rw [getPeers_live, List.length_map]
    rfl

/-- Witness for C6 at a concrete one-entry host. -/
theorem C6_weak_registry_pruning_witness :
    ((Host.mk (some 0) [WeakPeer.mk 3 (Peer.mk none) false] 1).dropStrong 3).peerCount
        + (((Host.mk (some 0) [WeakPeer.mk 3 (Peer.mk none) false] 1).peers_.filter
            (fun w => w.wrapperId == 3 && !w.expired)).length)
      = (Host.mk (some 0) [WeakPeer.mk 3 (Peer.mk none) false] 1).peerCount ∧
    ((Host.mk (some 0) [WeakPeer.mk 3 (Peer.mk none) false] 1).dropStrong 3).peerCount
      < (Host.mk (some 0) [WeakPeer.mk 3 (Peer.mk none) false] 1).peerCount := by
  have h := C6_weak_registry_pruning
    (Host.mk (some 0) [WeakPeer.mk 3 (Peer.mk none) false] 1) 3 (by decide)
  exact ⟨h.2.2.1, h.2.2.2.1⟩

/-- C9: duplicate registration on self-initiated connect — `connect()`
registers a wrapper for the new native peer, and the later matching
Connect event makes `processEvent` unconditionally register a second,
distinct wrapper for the same native handle; with both strongly held,
`peerCount()` reports 2 and `getPeers()` returns both wrappers for the
one underlying connection. -/
theorem C9_duplicate_registration (hh : Nat) (np : NativePeer) (dat : Nat) :
    (Host.mk (some hh) [] 0).connect (some np)
      = some ((0, Peer.mk (some np)),
              Host.mk (some hh) [WeakPeer.mk 0 (Peer.mk (some np)) false] 1) ∧
    ((Host.mk (some hh) [WeakPeer.mk 0 (Peer.mk (some np)) false] 1).processEvent
        (NativeEvent.connect np dat)).1
      = Host.mk (some hh)
          [WeakPeer.mk 0 (Peer.mk (some np)) false, WeakPeer.mk 1 (Peer.mk (some np)) false] 2 ∧
    (Host.mk (some hh)
        [WeakPeer.mk 0 (Peer.mk (some np)) false, WeakPeer.mk 1 (Peer.mk (some np)) false]
        2).peerCount = 2 ∧
    ((Host.mk (some hh)
        [WeakPeer.mk 0 (Peer.mk (some np)) false, WeakPeer.mk 1 (Peer.mk (some np)) false]
        2).getPeers).1
      = [(0, Peer.mk (some np)), (1, Peer.mk (some np))] :=
  ⟨rfl, rfl, rfl, rfl⟩

/-- C10: events for unregistered peers are dropped — when no still-live
registry entry matches the event's native peer, `processEvent` hands no
disconnect or receive event to the dispatcher and never wraps the
engine-owned packet of a receive event. -/
theorem C10_unregistered_events_dropped (h : Host) (np : NativePeer) (dat ch : Nat)
    (pkt : Option NativePacket)
    (hnone : (h.findPeerByNative np.handle).1 = none) :
    (h.processEvent (NativeEvent.disconnect np dat)).2.1 = [] ∧
    (h.processEvent (NativeEvent.receive np pkt ch)).2.1 = [] ∧
    (h.processEvent (NativeEvent.receive np pkt ch)).2.2 = [] := by
  rcases heq : h.findPeerByNative np.handle with ⟨o, h2⟩
  have ho : o = none := by
    rw [heq] at hnone
    exact hnone
  subst ho
  refine ⟨?_, ?_, ?_⟩
  · simp only [Host.processEvent]
    rw [heq]
  · simp only [Host.processEvent]
    rw [heq]
  · simp only [Host.processEvent]
    rw [heq]

/-- Witness for C10 at a concrete empty-registry host. -/
theorem C10_unregistered_events_dropped_witness :
    ((Host.mk (some 0) [] 0).processEvent
        (NativeEvent.disconnect (NativePeer.mk 7 PeerState.connected 0) 1)).2.1 = [] ∧
    ((Host.mk (some 0) [] 0).processEvent
        (NativeEvent.receive (NativePeer.mk 7 PeerState.connected 0)
          (some (NativePacket.mk [1] 0)) 2)).2.1 = [] ∧
    ((Host.mk (some 0) [] 0).processEvent
        (NativeEvent.receive (NativePeer.mk 7 PeerState.connected 0)
          (some (NativePacket.mk [1] 0)) 2)).2.2 = [] :=
  C10_unregistered_events_dropped (Host.mk (some 0) [] 0)
    (NativePeer.mk 7 PeerState.connected 0) 1 2 (some (NativePacket.mk [1] 0)) (by decide)

end Icelander
